import Mathlib

/-!
# Help and error printing of the `conf` package (`print.go`)

A shallow embedding of `Loader.FprintError`, `Loader.FprintHelp` and
`prettyType`. The output sink is the text written to it so far; each
`fmt.Fprintf`/`fmt.Fprint` call appends to that text. Go's `len` on a string is
its number of UTF-8 bytes, written `len` below.

Parts of the package that `print.go` calls but does not define (`value`,
`newFlagSet`, `makeConfValue`, `addFileFlag`, `isZeroValue`) are either fields
of the data the functions receive or are marked as modelled from the
specification. `flag.FlagSet` is the Go standard library's flag set.

Types are type expressions (`RType`), on which `prettyType` is a total
function. A second model, a table of types whose cells name their element type
by index, also holds types that are their own element type; there `prettyType`
counts its calls.
-/

namespace Conf

/-! ## Types seen through `reflect` -/

/-- The kinds of `reflect.Kind`. -/
inductive Kind where
  | invalid | bool | int | int8 | int16 | int32 | int64
  | uint | uint8 | uint16 | uint32 | uint64 | uintptr
  | float32 | float64 | complex64 | complex128
  | array | chan | func | interface | map | ptr | slice | string | struct
  | unsafePointer
  deriving DecidableEq, Repr

/-- The kinds of the types `prettyType` never takes the element type of:
every kind except array, slice and pointer. -/
inductive LeafKind where
  | bool | int | int8 | int16 | int32 | int64
  | uint | uint8 | uint16 | uint32 | uint64 | uintptr
  | float32 | float64 | complex64 | complex128
  | chan | func | interface | map | string | struct
  | unsafePointer
  deriving DecidableEq, Repr

/-- The `reflect.Kind` of a leaf kind. -/
def LeafKind.toKind : LeafKind → Kind
  | .bool => .bool | .int => .int | .int8 => .int8 | .int16 => .int16
  | .int32 => .int32 | .int64 => .int64
  | .uint => .uint | .uint8 => .uint8 | .uint16 => .uint16
  | .uint32 => .uint32 | .uint64 => .uint64 | .uintptr => .uintptr
  | .float32 => .float32 | .float64 => .float64
  | .complex64 => .complex64 | .complex128 => .complex128
  | .chan => .chan | .func => .func | .interface => .interface
  | .map => .map | .string => .string | .struct => .struct
  | .unsafePointer => .unsafePointer

/-- A non-nil `reflect.Type`. `str` is what `String()` returns; two types are
identical exactly when they are equal as values of this type. -/
inductive RType where
  | leaf (k : LeafKind) (str : String)
  | slice (str : String) (elem : RType)
  | array (str : String) (elem : RType)
  | ptr (str : String) (elem : RType)
  deriving DecidableEq, Repr

/-- The method `Kind()` of `reflect.Type`. -/
def RType.Kind : RType → Kind
  | .leaf k _ => k.toKind
  | .slice _ _ => .slice
  | .array _ _ => .array
  | .ptr _ _ => .ptr

/-- The method `String()` of `reflect.Type`. -/
def RType.String : RType → String
  | .leaf _ s => s
  | .slice s _ => s
  | .array s _ => s
  | .ptr s _ => s

/-- The type `reflect.TypeOf(time.Duration(0))`. -/
def typeOfTimeDuration : RType := .leaf .int64 "time.Duration"

/-- The type `reflect.TypeOf(duration(0))`, the package's own duration type. -/
def typeOfDuration : RType := .leaf .int64 "conf.duration"

/-- The type `reflect.TypeOf(time.Time{})`. -/
def typeOfTime : RType := .leaf .struct "time.Time"

/-- The body of `prettyType` for a non-nil type. -/
def prettyTypeOf (t : RType) : String :=
  if t = typeOfTimeDuration then "duration"
  else if t = typeOfDuration then "duration"
  else if t = typeOfTime then "time"
  else
    match t with
    | .leaf .struct _ => "object"
    | .leaf .map _ => "object"
    | .slice _ e => if e.Kind = Kind.uint8 then "base64" else "list"
    | .array _ e => if e.Kind = Kind.uint8 then "base64" else "list"
    | .ptr _ e => prettyTypeOf e
    | .leaf _ s => s

/-- The function `prettyType`; `none` is the nil `reflect.Type`. -/
def prettyType : Option RType → String
  | none => "unknown"
  | some t => prettyTypeOf t

/-! ## Flags -/

/-- Go's `len` of a string: its number of bytes. -/
def len (s : String) : Nat := s.utf8ByteSize

/-- What `FprintHelp` reads from the package's `value` (a wrapper `v` around a
`reflect.Value`, defined outside `print.go`): `v.v.Type()`, `v.IsBoolFlag()`
and `isZeroValue(v.v)`. -/
structure Value where
  typ : RType
  isBoolFlag : Bool
  isZero : Bool
  deriving DecidableEq, Repr

/-- The fields of `flag.Flag`. -/
structure Flag where
  name : String
  usage : String
  value : Value
  defValue : String
  deriving DecidableEq, Repr

/-- Go's `<` on strings. It compares bytes; on UTF-8 text that is the order of
the code points, compared here. -/
def lessChars : List Char → List Char → Bool
  | [], [] => false
  | [], _ :: _ => true
  | _ :: _, [] => false
  | a :: as, b :: bs =>
    if a.toNat < b.toNat then true
    else if b.toNat < a.toNat then false
    else lessChars as bs

/-- Go's `a < b` on strings. -/
def strLess (a b : String) : Bool := lessChars a.data b.data

/-- The order `sortFlags` of the standard `flag` package sorts by: the flag
`f` may stand before `g` when the name of `g` is not less than that of `f`. -/
def nameLE (f g : Flag) : Prop := strLess g.name f.name = false

instance : DecidableRel nameLE := fun f g =>
  inferInstanceAs (Decidable (strLess g.name f.name = false))

/-- A `flag.FlagSet`: its name and its formal flags, at most one per name. -/
structure FlagSet where
  name : String
  formal : List Flag
  deriving Repr

/-- The function `flag.NewFlagSet`. -/
def NewFlagSet (name : String) : FlagSet := ⟨name, []⟩

/-- The method `Var` of `flag.FlagSet`: it panics when a flag of that name is
already defined. -/
def FlagSet.Var (set : FlagSet) (f : Flag) : Except String FlagSet :=
  if set.formal.any (fun g => g.name == f.name) then
    .error (if len set.name = 0 then "flag redefined: " ++ f.name
            else set.name ++ " flag redefined: " ++ f.name)
  else .ok { set with formal := set.formal ++ [f] }

/-- The function `sortFlags` of the standard `flag` package: the flags in
lexicographical order of their names. -/
def sortFlags (flags : List Flag) : List Flag := flags.insertionSort nameLE

/-- The method `VisitAll` of `flag.FlagSet`: it visits the flags in
lexicographical order, calling `fn` for each. -/
def FlagSet.VisitAll (set : FlagSet) (fn : String → Flag → String) (w : String) : String :=
  (sortFlags set.formal).foldl fn w

/-! ## Configurations -/

/-- The configuration `cfg` as `reflect.ValueOf(cfg)` shows it. `typ` is what
the verb `%T` prints for the value. A struct is given by the flags its fields
stand for, in the order the fields are declared (nested structs flattened
depth first); a nil pointer is a pointer whose element is `invalid`. -/
inductive Cfg where
  | invalid
  | struct (typ : String) (fields : List Flag)
  | ptr (typ : String) (elem : Cfg)
  | other (typ : String)
  deriving Repr

/-- Whether `v.Kind() == reflect.Ptr`. -/
def Cfg.isPtr : Cfg → Bool
  | .ptr _ _ => true
  | _ => false

/-- Whether `v.Kind() == reflect.Struct`. -/
def Cfg.isStruct : Cfg → Bool
  | .struct _ _ => true
  | _ => false

/-- The method `Elem()` of a pointer value. -/
def Cfg.Elem : Cfg → Cfg
  | .ptr _ e => e
  | c => c

/-- What `fmt.Sprintf("%T", cfg)` gives. -/
def Cfg.typeName : Cfg → String
  | .invalid => "<nil>"
  | .struct t _ => t
  | .ptr t _ => t
  | .other t => t

/-- The flags of the fields of a struct value, in declaration order. -/
def Cfg.fields : Cfg → List Flag
  | .struct _ fs => fs
  | _ => []

/-- Registers the flags one after the other with `Var`. -/
def registerAll : FlagSet → List Flag → Except String FlagSet
  | set, [] => .ok set
  | set, f :: fs =>
    match set.Var f with
    | .error e => .error e
    | .ok set1 => registerAll set1 fs

/-- Modelled from the spec: `newFlagSet(makeConfValue(v), name)`, defined
outside `print.go`. It makes a flag set with one flag per leaf field of the
configuration, registered in declaration order; two fields with the same flag
name make it fail. -/
def newFlagSet (v : Cfg) (name : String) : Except String FlagSet :=
  registerAll (NewFlagSet name) v.fields

/-- Modelled from the spec: the flag `addFileFlag` (defined outside
`print.go`) registers, of the text category and bound to no field of the
configuration. Its usage text is not fixed by the specification and is the
argument `fileUsage`. -/
def fileFlag (fileUsage : String) (name : String) : Flag :=
  { name := name, usage := fileUsage,
    value := { typ := .leaf .string "string", isBoolFlag := false, isZero := true },
    defValue := "" }

/-- Modelled from the spec: `addFileFlag(set, nil, name)`, defined outside
`print.go`. It adds one extra flag called `name` to the set. -/
def addFileFlag (fileUsage : String) (set : FlagSet) (name : String) : Except String FlagSet :=
  set.Var (fileFlag fileUsage name)

/-! ## Printing -/

/-- The receiver of the printing methods, with the fields `print.go` reads. -/
structure Loader where
  Program : String
  FileFlag : String
  deriving DecidableEq, Repr

/-- What `fmt`'s verb `%v` prints for an error; `none` is the nil error. -/
def errorText : Option String → String
  | none => "<nil>"
  | some msg => msg

/-- The method `Loader.FprintError`: the sink `w` after the call. -/
def FprintError (_ld : Loader) (w : String) (err : Option String) : String :=
  w ++ ("Error:\n  " ++ errorText err ++ "\n")

/-- The slice `h` that the callback of `FprintHelp` builds for the flag `f`. -/
def flagHelp (f : Flag) : List String :=
  let v := f.value
  let h : List String := []
  let h := if len f.usage ≠ 0 then h ++ [f.usage] else h
  let h :=
    if len f.defValue ≠ 0 ∧ v.isBoolFlag = false ∧ v.isZero = false then
      h ++ ["(default " ++ f.defValue ++ ")"]
    else h
  h

/-- The first step of the callback of `FprintHelp`: it writes the flag name
and then, by the `switch`, the type label or a line break. -/
def printName (w : String) (f : Flag) : String :=
  let v := f.value
  let w := w ++ ("  -" ++ f.name)
  if v.isBoolFlag = false then w ++ (" " ++ prettyType (some v.typ) ++ "\n")
  else if len f.name > 4 then w ++ "\n"
  else w

/-- The callback `FprintHelp` passes to `VisitAll`: the sink `w` after the
flag `f` has been printed. -/
def printFlag (w : String) (f : Flag) : String :=
  let v := f.value
  let w := printName w f
  let h := flagHelp f
  if h.length ≠ 0 then
    let w := if v.isBoolFlag = false ∨ len f.name > 4 then w ++ "    " else w
    w ++ ("\t" ++ " ".intercalate h ++ "\n")
  else w

/-- How a call ends: it returns with the sink holding `w`, or it panics with
a message while the sink holds `w`. -/
inductive Outcome where
  | done (w : String)
  | panicked (w : String) (msg : String)
  deriving DecidableEq, Repr

/-- The method `Loader.FprintHelp`, started with the sink holding `w`. -/
def FprintHelp (fileUsage : String) (ld : Loader) (w : String) (cfg : Cfg) : Outcome :=
  let v := cfg
  let v := if v.isPtr then v.Elem else v
  if v.isStruct = false then
    .panicked w ("cannot load configuration into " ++ cfg.typeName)
  else
    match newFlagSet v ld.Program with
    | .error e => .panicked w e
    | .ok set =>
      match (if len ld.FileFlag ≠ 0 then addFileFlag fileUsage set ld.FileFlag else .ok set) with
      | .error e => .panicked w e
      | .ok set =>
        let w := w ++ ("Usage of " ++ ld.Program ++ ":\n")
        .done (set.VisitAll printFlag w)

/-! ## The standard `flag` package's `PrintDefaults` -/

/-- The back quote, which `flag.UnquoteUsage` looks for. -/
def backquote : Char := Char.ofNat 96

/-- The line break. -/
def newline : Char := Char.ofNat 10

/-- The search of `flag.UnquoteUsage` for a back-quoted name in the usage
text: the name and the usage text without the two back quotes, or `none` when
the text has fewer than two back quotes. -/
def unquoteChars (usage : List Char) : Option (List Char × List Char) :=
  match usage.span (fun c => c != backquote) with
  | (_, []) => none
  | (pre, _ :: rest) =>
    match rest.span (fun c => c != backquote) with
    | (_, []) => none
    | (nm, _ :: post) => some (nm, pre ++ nm ++ post)

/-- The call `strings.ReplaceAll(usage, "\n", "\n    \t")` of `PrintDefaults`. -/
def replaceNewlines : List Char → List Char
  | [] => []
  | c :: cs =>
    if c = newline then "\n    \t".data ++ replaceNewlines cs
    else c :: replaceNewlines cs

/-- The reference of C8: what `PrintDefaults` of the standard `flag` package
writes for one flag, where the type name `UnquoteUsage` falls back to is the
label of `prettyType` (and empty for a boolean flag), and the zero test, the
default text and the boolean-ness are those of the flag value. -/
def stdPrintDefaults (w : String) (f : Flag) : String :=
  let b := "  -" ++ f.name
  let unquoted : String × String :=
    match unquoteChars f.usage.data with
    | some (nm, us) => (String.mk nm, String.mk us)
    | none => (if f.value.isBoolFlag = true then "" else prettyType (some f.value.typ), f.usage)
  let name := unquoted.1
  let usage := unquoted.2
  let b := if len name > 0 then b ++ " " ++ name else b
  let b := if len b ≤ 4 then b ++ "\t" else b ++ "\n    \t"
  let b := b ++ String.mk (replaceNewlines usage.data)
  let b := if f.value.isZero = false then b ++ (" (default " ++ f.defValue ++ ")") else b
  w ++ b ++ "\n"

/-! ## The flags shown -/

/-- The flags `FprintHelp` shows for a struct with the field flags `fs`: those
flags and, when `FileFlag` is set, the file flag after them. -/
def shownFlags (fileUsage : String) (ld : Loader) (fs : List Flag) : List Flag :=
  if len ld.FileFlag ≠ 0 then fs ++ [fileFlag fileUsage ld.FileFlag] else fs

/-! ## Examples used below -/

/-- The boolean field `Verbose` of scenario A, without usage text. -/
def verboseFlag : Flag :=
  { name := "verbose", usage := "",
    value := { typ := .leaf .bool "bool", isBoolFlag := true, isZero := true },
    defValue := "false" }

/-- The duration field `Timeout` of scenario A, holding zero. -/
def timeoutFlag : Flag :=
  { name := "timeout", usage := "request timeout",
    value := { typ := typeOfTimeDuration, isBoolFlag := false, isZero := true },
    defValue := "0s" }

/-- The configuration of scenario A: `Verbose` declared before `Timeout`. -/
def scenarioA : Cfg := .struct "main.config" [verboseFlag, timeoutFlag]

/-- A boolean flag with a one-letter name and a usage text. -/
def shortBoolFlag : Flag :=
  { name := "v", usage := "be loud",
    value := { typ := .leaf .bool "bool", isBoolFlag := true, isZero := true },
    defValue := "false" }

/-- A boolean flag with a name of seven letters and a usage text. -/
def longBoolFlag : Flag :=
  { name := "verbose", usage := "be loud",
    value := { typ := .leaf .bool "bool", isBoolFlag := true, isZero := true },
    defValue := "false" }

/-- An integer flag holding 8080. -/
def portFlag : Flag :=
  { name := "port", usage := "port to listen on",
    value := { typ := .leaf .int "int", isBoolFlag := false, isZero := false },
    defValue := "8080" }

/-- A flag that is not boolean, holds a value that is not zero and has an
empty default text. -/
def emptyDefaultFlag : Flag :=
  { name := "tag", usage := "tag to attach",
    value := { typ := .ptr "*string" (.leaf .string "string"), isBoolFlag := false,
               isZero := false },
    defValue := "" }

/-- The string field `Name` of scenario B, holding `api`; `d` is its default
text, which `flag.Var` takes from the value when the flag is registered. -/
def nameFlag (d : String) : Flag :=
  { name := "name", usage := "service name",
    value := { typ := .leaf .string "string", isBoolFlag := false, isZero := false },
    defValue := d }

/-- A string flag holding the empty text. -/
def hostFlag : Flag :=
  { name := "host", usage := "host to listen on",
    value := { typ := .leaf .string "string", isBoolFlag := false, isZero := true },
    defValue := "" }

/-- A configuration that declares `port` before `host`. -/
def portHostCfg : Cfg := .struct "main.config" [portFlag, hostFlag]

/-- A boolean flag with a name of three letters and a usage text. -/
def allFlag : Flag :=
  { name := "all", usage := "show everything",
    value := { typ := .leaf .bool "bool", isBoolFlag := true, isZero := true },
    defValue := "false" }

/-- An integer flag holding zero, without usage text. -/
def retriesFlag : Flag :=
  { name := "retries", usage := "",
    value := { typ := .leaf .int "int", isBoolFlag := false, isZero := true },
    defValue := "0" }

/-! ## Types with element types -/

/-- The method `Elem()` of `reflect.Type` for an array, a slice or a pointer
type. -/
def RType.Elem : RType → RType
  | .slice _ e => e
  | .array _ e => e
  | .ptr _ e => e
  | t => t

/-- The type `t` wrapped in one pointer level for each entry of `names`; an
entry is what `String()` returns for the pointer type of that level. -/
def ptrChain : List String → RType → RType
  | [], t => t
  | s :: names, t => .ptr s (ptrChain names t)

/-- The type `[]byte`. -/
def bytesType : RType := .slice "[]uint8" (.leaf .uint8 "uint8")

/-- The type `[]string`. -/
def stringsType : RType := .slice "[]string" (.leaf .string "string")

/-- A struct type of the program. -/
def serverType : RType := .leaf .struct "main.Server"

/-! ## Types that refer to themselves -/

/-- A type as the run time holds it: one cell of a table of types, in which an
array, slice or pointer type names its element type by the index of that
type's cell. Unlike an `RType`, such a type can be its own element type, as
`P` is after `type P *P`. -/
inductive TypeCell where
  | leaf (k : LeafKind) (str : String)
  | slice (str : String) (elem : Nat)
  | array (str : String) (elem : Nat)
  | ptr (str : String) (elem : Nat)
  deriving DecidableEq, Repr

/-- The method `Kind()` of the type in a cell. -/
def TypeCell.Kind : TypeCell → Kind
  | .leaf k _ => k.toKind
  | .slice _ _ => .slice
  | .array _ _ => .array
  | .ptr _ _ => .ptr

/-- The label for a slice or array type whose element type is in cell `e`. -/
def sequenceLabel (tab : List TypeCell) (e : Nat) : Option String :=
  match tab.get? e with
  | none => none
  | some ce => some (if ce.Kind = Kind.uint8 then "base64" else "list")

/-- The function `prettyType` on the type in cell `i` of the table `tab`,
making at most `fuel` calls: `none` when the calls are used up before a label
is returned (or when `i` is not a cell of the table). -/
def prettyTypeIn (tab : List TypeCell) : Nat → Nat → Option String
  | 0, _ => none
  | fuel + 1, i =>
    match tab.get? i with
    | none => none
    | some c =>
      if c = .leaf .int64 "time.Duration" then some "duration"
      else if c = .leaf .int64 "conf.duration" then some "duration"
      else if c = .leaf .struct "time.Time" then some "time"
      else
        match c with
        | .leaf .struct _ => some "object"
        | .leaf .map _ => some "object"
        | .slice _ e => sequenceLabel tab e
        | .array _ e => sequenceLabel tab e
        | .ptr _ e => prettyTypeIn tab fuel e
        | .leaf _ s => some s

/-- Whether the chain of pointer element types that starts at cell `i` reaches
within `n` steps a type that is not a pointer type (whose element type, if it
is a slice or an array, is a cell of the table). -/
def chainEnds (tab : List TypeCell) : Nat → Nat → Bool
  | 0, i =>
    match tab.get? i with
    | none => false
    | some (.ptr _ _) => false
    | some (.slice _ e) => (tab.get? e).isSome
    | some (.array _ e) => (tab.get? e).isSome
    | some (.leaf _ _) => true
  | n + 1, i =>
    match tab.get? i with
    | none => false
    | some (.ptr _ e) => chainEnds tab n e
    | some (.slice _ e) => (tab.get? e).isSome
    | some (.array _ e) => (tab.get? e).isSome
    | some (.leaf _ _) => true

/-- The table of the declaration `type P *P`: the pointer type `P`, whose
element type is `P` itself. -/
def selfPointerTable : List TypeCell := [.ptr "main.P" 0]

/-- The table of `**[]byte`: cell 0 is `**[]byte`, cell 1 `*[]byte`, cell 2
`[]byte` and cell 3 `uint8`. -/
def bytesPointerTable : List TypeCell :=
  [.ptr "**[]uint8" 1, .ptr "*[]uint8" 2, .slice "[]uint8" 3, .leaf .uint8 "uint8"]

/-- The cells of the type `t` and of its element types, laid out from index
`i` on: the type itself in cell `i`, its element type in cell `i + 1`, and so
on. -/
def RType.cells : RType → Nat → List TypeCell
  | .leaf k s, _ => [.leaf k s]
  | .slice s e, i => .slice s (i + 1) :: e.cells (i + 1)
  | .array s e, i => .array s (i + 1) :: e.cells (i + 1)
  | .ptr s e, i => .ptr s (i + 1) :: e.cells (i + 1)

/-- The number of pointer levels at the top of a type. -/
def RType.ptrDepth : RType → Nat
  | .ptr _ e => e.ptrDepth + 1
  | _ => 0

/-! ## Configurations that are refused -/

/-- A second flag with the name `port`. -/
def clashFlag : Flag :=
  { name := "port", usage := "port of the peer",
    value := { typ := .leaf .int "int", isBoolFlag := false, isZero := true },
    defValue := "0" }

/-- A struct with two fields that stand for a flag called `port`. -/
def clashCfg : Cfg := .struct "main.config" [portFlag, clashFlag]

/-- The text in the sink ends with a line break. -/
def endsWithNewline (s : String) : Prop := s.data.getLast? = some newline

instance (s : String) : Decidable (endsWithNewline s) :=
  inferInstanceAs (Decidable (s.data.getLast? = some newline))

/-- A loader with the file flag `config-file`. -/
def fileLoader : Loader := { Program := "svc", FileFlag := "config-file" }

/-- A boolean flag with a one-letter name and no usage text. -/
def quietFlag : Flag :=
  { name := "q", usage := "",
    value := { typ := .leaf .bool "bool", isBoolFlag := true, isZero := true },
    defValue := "false" }

/-! ## Auxiliary facts -/

theorem join_cons (a : String) (l : List String) :
    String.join (a :: l) = a ++ String.join l := by
  have key : ∀ (l : List String) (x : String),
      List.foldl (fun r s => r ++ s) x l = x ++ List.foldl (fun r s => r ++ s) "" l := by
    intro l
    induction l with
    | nil => intro x; simp
    | cons b l ih =>
      intro x
      rw [List.foldl_cons, List.foldl_cons, ih (x ++ b), ih ("" ++ b)]
      simp [String.append_assoc]
  unfold String.join
  rw [List.foldl_cons, key l ("" ++ a)]
  simp

theorem printName_append (w : String) (f : Flag) :
    printName w f = w ++ printName "" f := by
  unfold printName
  by_cases hb : f.value.isBoolFlag = false <;> by_cases hl : len f.name > 4 <;>
    simp [hb, hl, String.append_assoc]

theorem printFlag_append (w : String) (f : Flag) :
    printFlag w f = w ++ printFlag "" f := by
  unfold printFlag
  rw [printName_append]
  dsimp only
  split_ifs <;> simp [String.append_assoc]

theorem foldl_printFlag (l : List Flag) (w : String) :
    l.foldl printFlag w = w ++ String.join (l.map (printFlag "")) := by
  induction l generalizing w with
  | nil => simp [String.join]
  | cons f l ih =>
    rw [List.foldl_cons, ih, printFlag_append w f, List.map_cons, join_cons]
    simp [String.append_assoc]

theorem len_eq_zero_iff (s : String) : len s = 0 ↔ s = "" := by
  have key : ∀ l : List Char, String.utf8ByteSize.go l = 0 ↔ l = [] := by
    intro l
    cases l with
    | nil => simp [String.utf8ByteSize.go]
    | cons c cs =>
      have := Char.utf8Size_pos c
      simp only [String.utf8ByteSize.go]
      constructor
      · intro h; omega
      · intro h; exact absurd h (List.cons_ne_nil c cs)
  cases s with
  | mk l =>
    unfold len String.utf8ByteSize
    rw [key l]
    constructor
    · intro h; rw [h]
    · intro h; exact congrArg String.data h

theorem indent_tab (x : String) : "    " ++ ("\t" ++ x) = "    \t" ++ x := by
  rw [← String.append_assoc]; rfl

theorem lessChars_asymm (a b : List Char) :
    lessChars a b = true → lessChars b a = false := by
  induction a generalizing b with
  | nil => cases b <;> simp [lessChars]
  | cons x xs ih =>
    cases b with
    | nil => simp [lessChars]
    | cons y ys =>
      simp only [lessChars]
      by_cases h1 : x.toNat < y.toNat
      · have h2 : ¬ y.toNat < x.toNat := by omega
        simp [h1, h2]
      · by_cases h2 : y.toNat < x.toNat
        · simp [h1, h2]
        · simp only [h1, h2, if_false]
          exact ih ys

theorem lessChars_cotrans (a b c : List Char) :
    lessChars c a = true → lessChars c b = true ∨ lessChars b a = true := by
  induction c generalizing a b with
  | nil =>
    cases a with
    | nil => simp [lessChars]
    | cons x xs =>
      intro _
      cases b with
      | nil => right; simp [lessChars]
      | cons y ys => left; simp [lessChars]
  | cons z zs ih =>
    cases a with
    | nil => simp [lessChars]
    | cons x xs =>
      cases b with
      | nil => intro _; right; simp [lessChars]
      | cons y ys =>
        simp only [lessChars]
        by_cases hzx : z.toNat < x.toNat
        · intro _
          by_cases hzy : z.toNat < y.toNat
          · left; simp [hzy]
          · have hyx : y.toNat < x.toNat := by omega
            right; simp [hyx]
        · by_cases hxz : x.toNat < z.toNat
          · simp [hzx, hxz]
          · simp only [hzx, hxz, if_false]
            intro h
            have hzx2 : z.toNat = x.toNat := by omega
            by_cases hzy : z.toNat < y.toNat
            · left; simp [hzy]
            · by_cases hyz : y.toNat < z.toNat
              · have hyx : y.toNat < x.toNat := by omega
                right; simp [hyx]
              · have hyx : ¬ y.toNat < x.toNat := by omega
                have hxy : ¬ x.toNat < y.toNat := by omega
                simp only [hzy, hyz, hyx, hxy, if_false]
                exact ih xs ys h

instance : IsTotal Flag nameLE where
  total f g := by
    unfold nameLE strLess
    cases h : lessChars g.name.data f.name.data
    · left; rfl
    · right; exact lessChars_asymm _ _ h

instance : IsTrans Flag nameLE where
  trans f g k hfg hgk := by
    unfold nameLE strLess at *
    cases h : lessChars k.name.data f.name.data
    · rfl
    · rcases lessChars_cotrans _ _ _ h with h1 | h1
      · rw [h1] at hgk; cases hgk
      · rw [h1] at hfg; cases hfg

theorem sortFlags_sorted (l : List Flag) : (sortFlags l).Sorted nameLE :=
  List.sorted_insertionSort nameLE l

theorem sortFlags_perm (l : List Flag) : (sortFlags l).Perm l :=
  List.perm_insertionSort nameLE l

theorem Var_ok (set : FlagSet) (f : Flag)
    (h : f.name ∉ set.formal.map Flag.name) :
    set.Var f = .ok ⟨set.name, set.formal ++ [f]⟩ := by
  unfold FlagSet.Var
  have hany : set.formal.any (fun g => g.name == f.name) = false := by
    rw [List.any_eq_false]
    intro g hg hbeq
    apply h
    rw [List.mem_map]
    exact ⟨g, hg, by simpa using hbeq⟩
  simp [hany]

theorem registerAll_ok (fs : List Flag) (set : FlagSet)
    (h : ((set.formal ++ fs).map Flag.name).Nodup) :
    registerAll set fs = .ok ⟨set.name, set.formal ++ fs⟩ := by
  induction fs generalizing set with
  | nil => simp [registerAll]
  | cons f fs ih =>
    have hf : f.name ∉ set.formal.map Flag.name := by
      intro hmem
      rw [List.map_append, List.map_cons] at h
      have := (List.nodup_append.mp h).2.2
      exact this hmem (List.mem_cons_self _ _)
    rw [registerAll, Var_ok set f hf]
    have h2 : (((⟨set.name, set.formal ++ [f]⟩ : FlagSet).formal ++ fs).map Flag.name).Nodup := by
      simpa using h
    show registerAll ⟨set.name, set.formal ++ [f]⟩ fs = _
    rw [ih ⟨set.name, set.formal ++ [f]⟩ h2]
    simp

theorem FprintHelp_struct (fileUsage : String) (ld : Loader) (w typ : String)
    (fs : List Flag) (cfg : Cfg)
    (hcfg : (if cfg.isPtr then cfg.Elem else cfg) = .struct typ fs)
    (hn : ((shownFlags fileUsage ld fs).map Flag.name).Nodup) :
    FprintHelp fileUsage ld w cfg =
      .done (w ++ ("Usage of " ++ ld.Program ++ ":\n") ++
        String.join ((sortFlags (shownFlags fileUsage ld fs)).map (printFlag ""))) := by
  unfold FprintHelp
  dsimp only
  rw [hcfg]
  have hnfs : (fs.map Flag.name).Nodup := by
    unfold shownFlags at hn
    split_ifs at hn with hfile
    · rw [List.map_append] at hn
      exact (List.nodup_append.mp hn).1
    · exact hn
  have hreg : newFlagSet (.struct typ fs) ld.Program = .ok ⟨ld.Program, fs⟩ := by
    unfold newFlagSet NewFlagSet
    show registerAll ⟨ld.Program, []⟩ fs = _
    rw [registerAll_ok fs ⟨ld.Program, []⟩ (by simpa using hnfs)]
    simp
  simp only [Cfg.isStruct, hreg]
  unfold shownFlags at hn ⊢
  by_cases hfile : len ld.FileFlag ≠ 0
  · rw [if_pos hfile] at hn
    simp only [if_pos hfile]
    have hnot : (fileFlag fileUsage ld.FileFlag).name ∉
        (⟨ld.Program, fs⟩ : FlagSet).formal.map Flag.name := by
      intro hmem
      rw [List.map_append] at hn
      exact (List.nodup_append.mp hn).2.2 hmem (by simp)
    unfold addFileFlag
    rw [Var_ok _ _ hnot]
    simp only [FlagSet.VisitAll, foldl_printFlag]
    simp
  · simp only [if_neg hfile]
    simp only [FlagSet.VisitAll, foldl_printFlag]
    simp

theorem lessChars_connex (a b : List Char) :
    lessChars a b = false → lessChars b a = false → a = b := by
  induction a generalizing b with
  | nil => cases b <;> simp [lessChars]
  | cons x xs ih =>
    cases b with
    | nil => simp [lessChars]
    | cons y ys =>
      simp only [lessChars]
      by_cases h1 : x.toNat < y.toNat
      · simp [h1]
      · by_cases h2 : y.toNat < x.toNat
        · simp [h1, h2]
        · simp only [h1, h2, if_false]
          intro h3 h4
          have hxy : x = y := by
            apply Char.ext
            apply UInt32.ext
            show x.toNat = y.toNat
            omega
          rw [hxy, ih ys h3 h4]

theorem sortFlags_strict (l : List Flag) (hn : (l.map Flag.name).Nodup) :
    (sortFlags l).Pairwise (fun f g => strLess f.name g.name = true) := by
  have hs := sortFlags_sorted l
  have hp := sortFlags_perm l
  have hn2 : ((sortFlags l).map Flag.name).Nodup :=
    (List.Perm.nodup_iff (hp.map Flag.name)).mpr hn
  have hpw : (sortFlags l).Pairwise (fun f g => f.name ≠ g.name) := by
    rw [List.Nodup, List.pairwise_map] at hn2
    exact hn2
  have hboth := List.Pairwise.and hs hpw
  refine hboth.imp ?_
  rintro f g ⟨hle, hne⟩
  cases h : strLess f.name g.name
  · exfalso
    apply hne
    have hd := lessChars_connex f.name.data g.name.data h hle
    exact String.ext hd
  · rfl

theorem len_append (a b : String) : len (a ++ b) = len a + len b := by
  have key : ∀ l m : List Char,
      String.utf8ByteSize.go (l ++ m) = String.utf8ByteSize.go l + String.utf8ByteSize.go m := by
    intro l m
    induction l with
    | nil => simp [String.utf8ByteSize.go]
    | cons c cs ih =>
      show String.utf8ByteSize.go (cs ++ m) + c.utf8Size =
        String.utf8ByteSize.go cs + c.utf8Size + String.utf8ByteSize.go m
      rw [ih]
      omega
  cases a with
  | mk l =>
    cases b with
    | mk m =>
      show String.utf8ByteSize.go (l ++ m) = _
      rw [key l m]
      rfl

theorem unquoteChars_none (cs : List Char) (h : ∀ c ∈ cs, c ≠ backquote) :
    unquoteChars cs = none := by
  have hd : cs.dropWhile (fun c => c != backquote) = [] := by
    rw [List.dropWhile_eq_nil_iff]
    intro c hc
    simpa using h c hc
  unfold unquoteChars
  rw [List.span_eq_take_drop, hd]

theorem replaceNewlines_id (cs : List Char) (h : ∀ c ∈ cs, c ≠ newline) :
    replaceNewlines cs = cs := by
  induction cs with
  | nil => rfl
  | cons c cs ih =>
    have hc : c ≠ newline := h c (List.mem_cons_self _ _)
    have ht : ∀ x ∈ cs, x ≠ newline := fun x hx => h x (List.mem_cons_of_mem _ hx)
    simp [replaceNewlines, hc, ih ht]

/-- The text of a flag that is not boolean. -/
theorem printFlag_nonbool (w : String) (f : Flag)
    (hb : f.value.isBoolFlag = false) :
    printName w f = w ++ ("  -" ++ f.name ++ " " ++ prettyType (some f.value.typ) ++ "\n") ∧
    printFlag w f =
      w ++ ("  -" ++ f.name ++ " " ++ prettyType (some f.value.typ) ++ "\n") ++
        (if flagHelp f = [] then ""
         else "    \t" ++ " ".intercalate (flagHelp f) ++ "\n") := by
  have h1 : printName w f =
      w ++ ("  -" ++ f.name ++ " " ++ prettyType (some f.value.typ) ++ "\n") := by
    unfold printName
    simp [hb, String.append_assoc]
  refine ⟨h1, ?_⟩
  unfold printFlag
  dsimp only
  rw [h1]
  by_cases hh : flagHelp f = []
  · simp [hh]
  · have hlen : (flagHelp f).length ≠ 0 := by
      intro h0; exact hh (List.length_eq_zero.mp h0)
    rw [if_pos hlen, if_pos (Or.inl hb), if_neg hh]
    simp only [String.append_assoc, indent_tab]

/-- The text of a boolean flag, by the length of its name. -/
theorem printFlag_bool_cases (w : String) (f : Flag) (hb : f.value.isBoolFlag = true) :
    (len f.name > 4 →
      printName w f = w ++ ("  -" ++ f.name ++ "\n") ∧
      printFlag w f = w ++ ("  -" ++ f.name ++ "\n") ++
        (if len f.usage ≠ 0 then "    \t" ++ f.usage ++ "\n" else "")) ∧
    (len f.name ≤ 4 →
      printName w f = w ++ ("  -" ++ f.name) ∧
      printFlag w f = w ++ ("  -" ++ f.name) ++
        (if len f.usage ≠ 0 then "\t" ++ f.usage ++ "\n" else "")) := by
  have hh : flagHelp f = if len f.usage ≠ 0 then [f.usage] else [] := by
    unfold flagHelp
    simp [hb]
  constructor
  · intro hl
    have h1 : printName w f = w ++ ("  -" ++ f.name ++ "\n") := by
      unfold printName
      simp [hb, hl, String.append_assoc]
    refine ⟨h1, ?_⟩
    unfold printFlag
    dsimp only
    rw [h1, hh]
    by_cases hu : len f.usage ≠ 0
    · rw [if_pos hu, if_pos hu, if_pos (by simp), if_pos (Or.inr hl)]
      simp only [String.append_assoc, indent_tab, String.intercalate, String.intercalate.go]
    · rw [if_neg hu, if_neg hu, if_neg (by simp)]
      simp
  · intro hl
    have hl2 : ¬ len f.name > 4 := by omega
    have h1 : printName w f = w ++ ("  -" ++ f.name) := by
      unfold printName
      simp [hb, hl2]
    refine ⟨h1, ?_⟩
    unfold printFlag
    dsimp only
    rw [h1, hh]
    by_cases hu : len f.usage ≠ 0
    · rw [if_pos hu, if_pos hu, if_pos (by simp), if_neg (by simp [hb, hl2])]
      simp only [String.append_assoc, String.intercalate, String.intercalate.go]
    · rw [if_neg hu, if_neg hu, if_neg (by simp)]
      simp

/-- The list `h` of a flag in closed form. -/
theorem flagHelp_closed (f : Flag) :
    flagHelp f =
      (if len f.usage ≠ 0 then [f.usage] else []) ++
      (if len f.defValue ≠ 0 ∧ f.value.isBoolFlag = false ∧ f.value.isZero = false then
        ["(default " ++ f.defValue ++ ")"] else []) ∧
    (f.value.isBoolFlag = true →
      flagHelp f = if len f.usage ≠ 0 then [f.usage] else []) := by
  constructor
  · unfold flagHelp
    dsimp only
    split_ifs <;> simp
  · intro hb
    unfold flagHelp
    simp [hb]

/-! ## Scenario A -/

/-- C1, as stated, fails: for scenario A with the program name `svc` and no
file flag, `FprintHelp` does not write the header, then `verbose`, then
`timeout`. -/
theorem scenarioA_counterexample :
    FprintHelp "" ⟨"svc", ""⟩ "" scenarioA ≠
      .done "Usage of svc:\n  -verbose\n  -timeout duration\n    \trequest timeout\n" := by
  decide

/-- C1, amended: for scenario A with the program name `svc` and no file flag,
`FprintHelp` writes the header, then the flag `timeout` with its usage line,
then the flag `verbose`: the flags come in the order of their names. -/
theorem scenarioA_output (fileUsage w : String) :
    FprintHelp fileUsage ⟨"svc", ""⟩ w scenarioA =
      .done (w ++ "Usage of svc:\n  -timeout duration\n    \trequest timeout\n  -verbose\n") := by
  have hs : shownFlags fileUsage ⟨"svc", ""⟩ [verboseFlag, timeoutFlag] =
      [verboseFlag, timeoutFlag] := rfl
  rw [FprintHelp_struct fileUsage ⟨"svc", ""⟩ w "main.config" [verboseFlag, timeoutFlag]
    scenarioA rfl (by rw [hs]; decide), hs]
  have h : String.join ((sortFlags [verboseFlag, timeoutFlag]).map (printFlag "")) =
      "  -timeout duration\n    \trequest timeout\n  -verbose\n" := by decide
  rw [h, String.append_assoc]
  rfl

/-! ## The text of one flag -/

/-- C2: for a flag that is not boolean, the first thing `FprintHelp` writes for
it is two spaces, a dash, the flag name, one space, the label `prettyType`
gives for the type of the flag value, and a line break; whatever follows is the
annotation line. -/
theorem printFlag_nonbool_first_line (w : String) (f : Flag)
    (hb : f.value.isBoolFlag = false) :
    printName w f = w ++ ("  -" ++ f.name ++ " " ++ prettyType (some f.value.typ) ++ "\n") ∧
    printFlag w f =
      w ++ ("  -" ++ f.name ++ " " ++ prettyType (some f.value.typ) ++ "\n") ++
        (if flagHelp f = [] then ""
         else "    \t" ++ " ".intercalate (flagHelp f) ++ "\n") :=
  printFlag_nonbool w f hb

theorem printFlag_nonbool_first_line_witness :
    portFlag.value.isBoolFlag = false ∧
    printName "" portFlag = "" ++ ("  -" ++ "port" ++ " " ++ "int" ++ "\n") ∧
    printFlag "" portFlag =
      "" ++ ("  -" ++ portFlag.name ++ " " ++ prettyType (some portFlag.value.typ) ++ "\n") ++
        (if flagHelp portFlag = [] then ""
         else "    \t" ++ " ".intercalate (flagHelp portFlag) ++ "\n") :=
  ⟨rfl, printFlag_nonbool_first_line "" portFlag rfl⟩

/-- C3, as stated, fails: the boolean flag `v` has a name of at most 4 bytes,
yet no line break follows its name (the usage text follows after a tab on the
same line), and the boolean flag `verbose` has a name longer than 4 bytes, yet
a line break follows its name at once. -/
theorem bool_line_break_counterexample :
    (shortBoolFlag.value.isBoolFlag = true ∧ len shortBoolFlag.name ≤ 4 ∧
      printFlag "" shortBoolFlag = "  -v\tbe loud\n" ∧
      ¬ ∃ rest, printFlag "" shortBoolFlag = "  -" ++ shortBoolFlag.name ++ "\n" ++ rest) ∧
    (longBoolFlag.value.isBoolFlag = true ∧ len longBoolFlag.name > 4 ∧
      printFlag "" longBoolFlag = "  -verbose\n    \tbe loud\n") := by
  refine ⟨⟨rfl, by decide, by decide, ?_⟩, rfl, by decide, by decide⟩
  rintro ⟨rest, h⟩
  have h1 : printFlag "" shortBoolFlag = "  -v\tbe loud\n" := by decide
  rw [h1] at h
  have h2 := congrArg (fun s => s.data.take 5) h
  simp [shortBoolFlag, String.data_append] at h2

/-- C3, amended: for a boolean flag, after the flag name `FprintHelp` writes a
line break at once exactly when the name is longer than 4 bytes, and the usage
text, if any, then stands indented on the next line; when the name has at most
4 bytes no line break is written at that point and the usage text, if any,
follows a tab on the same line. -/
theorem printFlag_bool (w : String) (f : Flag) (hb : f.value.isBoolFlag = true) :
    (len f.name > 4 →
      printName w f = w ++ ("  -" ++ f.name ++ "\n") ∧
      printFlag w f = w ++ ("  -" ++ f.name ++ "\n") ++
        (if len f.usage ≠ 0 then "    \t" ++ f.usage ++ "\n" else "")) ∧
    (len f.name ≤ 4 →
      printName w f = w ++ ("  -" ++ f.name) ∧
      printFlag w f = w ++ ("  -" ++ f.name) ++
        (if len f.usage ≠ 0 then "\t" ++ f.usage ++ "\n" else "")) :=
  printFlag_bool_cases w f hb

theorem printFlag_bool_witness :
    shortBoolFlag.value.isBoolFlag = true ∧
    ((len shortBoolFlag.name > 4 →
      printName "" shortBoolFlag = "" ++ ("  -" ++ shortBoolFlag.name ++ "\n") ∧
      printFlag "" shortBoolFlag = "" ++ ("  -" ++ shortBoolFlag.name ++ "\n") ++
        (if len shortBoolFlag.usage ≠ 0 then "    \t" ++ shortBoolFlag.usage ++ "\n" else "")) ∧
    (len shortBoolFlag.name ≤ 4 →
      printName "" shortBoolFlag = "" ++ ("  -" ++ shortBoolFlag.name) ∧
      printFlag "" shortBoolFlag = "" ++ ("  -" ++ shortBoolFlag.name) ++
        (if len shortBoolFlag.usage ≠ 0 then "\t" ++ shortBoolFlag.usage ++ "\n" else ""))) :=
  ⟨rfl, printFlag_bool "" shortBoolFlag rfl⟩

/-- C4, as stated, fails: the flag `tag` is not boolean and its value is not
zero, yet the list built for it holds the usage text only, because its default
text is empty. -/
theorem default_annotation_counterexample :
    emptyDefaultFlag.value.isBoolFlag = false ∧ emptyDefaultFlag.value.isZero = false ∧
    flagHelp emptyDefaultFlag = ["tag to attach"] ∧
    "(default " ++ emptyDefaultFlag.defValue ++ ")" ∉ flagHelp emptyDefaultFlag := by
  decide

/-- C4, amended: the list `FprintHelp` builds for a flag is the usage text if
it is not empty, followed by `(default <default text>)` exactly when the
default text is not empty, the flag is not boolean and its value is not the
zero value; so a boolean flag never gets the default annotation. -/
theorem flagHelp_eq (f : Flag) :
    flagHelp f =
      (if len f.usage ≠ 0 then [f.usage] else []) ++
      (if len f.defValue ≠ 0 ∧ f.value.isBoolFlag = false ∧ f.value.isZero = false then
        ["(default " ++ f.defValue ++ ")"] else []) ∧
    (f.value.isBoolFlag = true →
      flagHelp f = if len f.usage ≠ 0 then [f.usage] else []) :=
  flagHelp_closed f

/-- C5: for a flag whose annotation list is not empty, after the name part
`FprintHelp` writes four spaces unless the flag is boolean with a name of at
most 4 bytes, then a tab, the annotations joined by single spaces and a line
break; for a flag whose annotation list is empty it writes nothing after the
name part. -/
theorem printFlag_annotations (w : String) (f : Flag) :
    (flagHelp f ≠ [] →
      printFlag w f =
        printName w f ++
          ((if f.value.isBoolFlag = true ∧ len f.name ≤ 4 then "" else "    ") ++
            "\t" ++ " ".intercalate (flagHelp f) ++ "\n")) ∧
    (flagHelp f = [] → printFlag w f = printName w f) := by
  constructor
  · intro hh
    have hlen : (flagHelp f).length ≠ 0 := by
      intro h0; exact hh (List.length_eq_zero.mp h0)
    unfold printFlag
    dsimp only
    rw [if_pos hlen]
    by_cases hc : f.value.isBoolFlag = false ∨ len f.name > 4
    · have hn : ¬ (f.value.isBoolFlag = true ∧ len f.name ≤ 4) := by
        rintro ⟨h1, h2⟩
        rcases hc with h | h
        · rw [h1] at h; cases h
        · omega
      rw [if_pos hc, if_neg hn]
      simp only [String.append_assoc]
    · have hn : f.value.isBoolFlag = true ∧ len f.name ≤ 4 := by
        constructor
        · cases hv : f.value.isBoolFlag
          · exact absurd (Or.inl hv) hc
          · rfl
        · by_contra h
          exact hc (Or.inr (by omega))
      rw [if_neg hc, if_pos hn]
      simp [String.append_assoc]
  · intro hh
    unfold printFlag
    simp [hh]

/-! ## Scenario B -/

/-- C6, as stated, fails: when the field `Name` holds `api` and the default
text of its flag is `api`, the text written for the flag ends with the
annotation `(default api)`. -/
theorem scenarioB_counterexample :
    printFlag "" (nameFlag "api") = "  -name string\n    \tservice name (default api)\n" ∧
    printFlag "" (nameFlag "api") ≠ "  -name string\n    \tservice name\n" := by
  decide

/-- C6, amended: for the string field `Name` with usage `service name` and a
value that is not zero, the text written for the flag is the name line, then
the usage text followed by `(default <d>)`, where `d` is the default text of
the flag, whenever that text is not empty. -/
theorem scenarioB_output (w d : String) (hd : len d ≠ 0) :
    printFlag w (nameFlag d) =
      w ++ ("  -name string\n    \tservice name (default " ++ d ++ ")\n") := by
  rw [printFlag_append]
  congr 1
  have hu : len "service name" ≠ 0 := by decide
  have hh : flagHelp (nameFlag d) = ["service name", "(default " ++ d ++ ")"] := by
    unfold flagHelp
    simp [nameFlag, hd, hu]
  have hp : prettyType (some (RType.leaf LeafKind.string "string")) = "string" := by decide
  unfold printFlag printName
  dsimp only
  rw [hh]
  simp only [nameFlag, hp, String.intercalate, String.intercalate.go, List.length_cons,
    List.length_nil, if_true, true_or, ne_eq, not_false_eq_true, Nat.add_one_ne_zero]
  apply String.ext
  simp [String.data_append]

theorem scenarioB_output_witness :
    len "\"api\"" ≠ 0 ∧
    printFlag "" (nameFlag "\"api\"") =
      "" ++ ("  -name string\n    \tservice name (default " ++ "\"api\"" ++ ")\n") :=
  ⟨by decide, scenarioB_output "" "\"api\"" (by decide)⟩

/-! ## The order of the flags -/

/-- C7, as stated, fails: the configuration declares `port` before `host`, and
`FprintHelp` writes the text of `host` before the text of `port`. -/
theorem declaration_order_counterexample :
    FprintHelp "" ⟨"svc", ""⟩ "" portHostCfg =
      .done ("Usage of svc:\n" ++ printFlag "" hostFlag ++ printFlag "" portFlag) ∧
    FprintHelp "" ⟨"svc", ""⟩ "" portHostCfg ≠
      .done ("Usage of svc:\n" ++ printFlag "" portFlag ++ printFlag "" hostFlag) := by
  decide

/-- C7, amended: `FprintHelp` writes the flags in the lexicographical order of
their names. For a struct whose flags (with the file flag, if any) have
distinct names, the text after the header is the texts of the flags, one after
the other, taken in a rearrangement of the flags in which every name is less
than each later one. -/
theorem FprintHelp_name_order (fileUsage : String) (ld : Loader) (w typ : String)
    (fs : List Flag) (hn : ((shownFlags fileUsage ld fs).map Flag.name).Nodup) :
    ∃ l : List Flag,
      l.Perm (shownFlags fileUsage ld fs) ∧
      l.Pairwise (fun f g => strLess f.name g.name = true) ∧
      FprintHelp fileUsage ld w (.struct typ fs) =
        .done (w ++ ("Usage of " ++ ld.Program ++ ":\n") ++
          String.join (l.map (printFlag ""))) :=
  ⟨sortFlags (shownFlags fileUsage ld fs), sortFlags_perm _, sortFlags_strict _ hn,
    FprintHelp_struct fileUsage ld w typ fs (.struct typ fs) rfl hn⟩

theorem FprintHelp_name_order_witness :
    ((shownFlags "" ⟨"svc", ""⟩ [portFlag, hostFlag]).map Flag.name).Nodup ∧
    ∃ l : List Flag,
      l.Perm (shownFlags "" ⟨"svc", ""⟩ [portFlag, hostFlag]) ∧
      l.Pairwise (fun f g => strLess f.name g.name = true) ∧
      FprintHelp "" ⟨"svc", ""⟩ "" (.struct "main.config" [portFlag, hostFlag]) =
        .done ("" ++ ("Usage of " ++ "svc" ++ ":\n") ++ String.join (l.map (printFlag ""))) :=
  ⟨by decide, FprintHelp_name_order "" ⟨"svc", ""⟩ "" "main.config" [portFlag, hostFlag]
    (by decide)⟩

/-! ## Comparison with the standard `flag` package -/

/-- C8, as stated, fails: for the boolean flag `all` the standard package puts
the usage text on the next line while `FprintHelp` keeps it on the line of the
name, and for the flag `retries`, which has no usage text, the standard
package writes an empty indented line that `FprintHelp` does not write. -/
theorem stdPrintDefaults_counterexample :
    (printFlag "" allFlag = "  -all\tshow everything\n" ∧
      stdPrintDefaults "" allFlag = "  -all\n    \tshow everything\n") ∧
    (printFlag "" retriesFlag = "  -retries int\n" ∧
      stdPrintDefaults "" retriesFlag = "  -retries int\n    \t\n") ∧
    printFlag "" allFlag ≠ stdPrintDefaults "" allFlag ∧
    printFlag "" retriesFlag ≠ stdPrintDefaults "" retriesFlag := by
  decide

/-- C8, amended: for a flag whose usage text is not empty and holds neither a
back quote nor a line break, and which is either not boolean, with a type
label that is not empty and a default text that is not empty when the value is
not zero, or boolean with the zero value and a name of at most 1 byte or of
more than 4 bytes, `FprintHelp` writes what `PrintDefaults` of the standard
package writes with the label of `prettyType` as the type name. -/
theorem printFlag_eq_stdPrintDefaults (w : String) (f : Flag)
    (hu : len f.usage ≠ 0)
    (hq : ∀ c ∈ f.usage.data, c ≠ backquote ∧ c ≠ newline)
    (hk : (f.value.isBoolFlag = false ∧ len (prettyType (some f.value.typ)) ≠ 0 ∧
            (f.value.isZero = false → len f.defValue ≠ 0)) ∨
          (f.value.isBoolFlag = true ∧ f.value.isZero = true ∧
            (len f.name ≤ 1 ∨ len f.name > 4))) :
    printFlag w f = stdPrintDefaults w f := by
  have huq : unquoteChars f.usage.data = none :=
    unquoteChars_none _ (fun c hc => (hq c hc).1)
  have hrn : replaceNewlines f.usage.data = f.usage.data :=
    replaceNewlines_id _ (fun c hc => (hq c hc).2)
  have h3 : len "  -" = 3 := by decide
  have h1 : len " " = 1 := by decide
  have he : len "" = 0 := by decide
  rcases hk with ⟨hb, hlab, hdef⟩ | ⟨hb, hz, hname⟩
  · -- not boolean
    have hlen : ¬ len ("  -" ++ f.name ++ " " ++ prettyType (some f.value.typ)) ≤ 4 := by
      rw [len_append, len_append, len_append, h3, h1]
      omega
    have hstd : stdPrintDefaults w f =
        w ++ ("  -" ++ f.name ++ " " ++ prettyType (some f.value.typ) ++ "\n    \t" ++ f.usage ++
          (if f.value.isZero = false then " (default " ++ f.defValue ++ ")" else "")) ++ "\n" := by
      unfold stdPrintDefaults
      simp only [huq, hrn, hb]
      have hpos : len (prettyType (some f.value.typ)) > 0 := by omega
      simp only [Bool.false_eq_true, if_false, if_pos hpos, if_neg hlen]
      by_cases hz : f.value.isZero = false
      · simp only [if_pos hz]
      · simp only [if_neg hz, String.append_empty]
    have hcode := (printFlag_nonbool w f hb).2
    have hh : flagHelp f =
        [f.usage] ++ (if f.value.isZero = false then ["(default " ++ f.defValue ++ ")"] else []) := by
      rw [(flagHelp_closed f).1, if_pos hu]
      by_cases hz : f.value.isZero = false
      · rw [if_pos ⟨hdef hz, hb, hz⟩, if_pos hz]
      · rw [if_neg (fun h => hz h.2.2), if_neg hz]
    rw [hcode, hstd, hh]
    by_cases hz : f.value.isZero = false
    · simp only [if_pos hz, List.singleton_append, if_neg (List.cons_ne_nil _ _),
        String.intercalate, String.intercalate.go]
      apply String.ext
      simp [String.data_append]
    · simp only [if_neg hz, List.append_nil, if_neg (List.cons_ne_nil _ _),
        String.intercalate, String.intercalate.go]
      apply String.ext
      simp [String.data_append]
  · -- boolean, holding the zero value
    have hzf : ¬ f.value.isZero = false := by rw [hz]; simp
    have hstd : stdPrintDefaults w f =
        w ++ ("  -" ++ f.name ++ (if len f.name ≤ 1 then "\t" else "\n    \t") ++ f.usage) ++
          "\n" := by
      unfold stdPrintDefaults
      simp only [huq, hrn, hb, if_true, he, gt_iff_lt, Nat.lt_irrefl, if_false, if_neg hzf]
      rw [len_append, h3]
      by_cases hl : len f.name ≤ 1
      · rw [if_pos (by omega), if_pos hl]
      · rw [if_neg (by omega), if_neg hl]
    rw [hstd]
    rcases hname with hl | hl
    · have hcode := ((printFlag_bool_cases w f hb).2 (by omega)).2
      rw [hcode, if_pos hu, if_pos hl]
      simp only [String.append_assoc]
    · have hcode := ((printFlag_bool_cases w f hb).1 hl).2
      rw [hcode, if_pos hu, if_neg (by omega)]
      apply String.ext
      simp [String.data_append]

theorem printFlag_eq_stdPrintDefaults_witness :
    len portFlag.usage ≠ 0 ∧
    printFlag "" portFlag = stdPrintDefaults "" portFlag :=
  ⟨by decide, printFlag_eq_stdPrintDefaults "" portFlag (by decide) (by decide)
    (Or.inl (by decide))⟩

/-! ## The error message -/

/-- C9: for every (non-nil) error, `FprintError` appends to the sink exactly
the text `Error:`, a line break, two spaces, the message of the error and a
line break; started on an empty sink, that text is all the sink holds. -/
theorem FprintError_writes (ld : Loader) (w msg : String) :
    FprintError ld w (some msg) = w ++ ("Error:\n  " ++ msg ++ "\n") ∧
    FprintError ld "" (some msg) = "Error:\n  " ++ msg ++ "\n" := by
  constructor
  · rfl
  · simp [FprintError, errorText]

/-! ## The header line -/

/-- C10: whenever `FprintHelp` returns, what it has written starts with the
header line `Usage of <program>:`, written before any flag text; it does
return for every struct, and every pointer to a struct, whose flags (with the
file flag, if any) have distinct names, and then the flag texts follow the
header; and for a struct without flags and a loader without file flag the
header is all it writes. -/
theorem FprintHelp_header (fileUsage : String) (ld : Loader) (w : String) :
    (∀ cfg out, FprintHelp fileUsage ld w cfg = .done out →
      ∃ rest, out = w ++ ("Usage of " ++ ld.Program ++ ":\n") ++ rest) ∧
    (∀ cfg typ fs, (if cfg.isPtr then cfg.Elem else cfg) = .struct typ fs →
      ((shownFlags fileUsage ld fs).map Flag.name).Nodup →
      FprintHelp fileUsage ld w cfg =
        .done (w ++ ("Usage of " ++ ld.Program ++ ":\n") ++
          String.join ((sortFlags (shownFlags fileUsage ld fs)).map (printFlag "")))) ∧
    (∀ typ, len ld.FileFlag = 0 →
      FprintHelp fileUsage ld w (.struct typ []) =
        .done (w ++ ("Usage of " ++ ld.Program ++ ":\n"))) := by
  refine ⟨?_, ?_, ?_⟩
  · intro cfg out h
    unfold FprintHelp at h
    dsimp only at h
    generalize (if cfg.isPtr = true then cfg.Elem else cfg) = v at h
    by_cases hs : v.isStruct = false
    · rw [if_pos hs] at h
      cases h
    · rw [if_neg hs] at h
      cases hr : newFlagSet v ld.Program with
      | error e => rw [hr] at h; cases h
      | ok set =>
        rw [hr] at h
        dsimp only at h
        cases hr2 : (if len ld.FileFlag ≠ 0 then addFileFlag fileUsage set ld.FileFlag
            else Except.ok set) with
        | error e => rw [hr2] at h; cases h
        | ok set2 =>
          rw [hr2] at h
          dsimp only at h
          injection h with h
          refine ⟨String.join ((sortFlags set2.formal).map (printFlag "")), ?_⟩
          rw [← h, FlagSet.VisitAll, foldl_printFlag]
  · intro cfg typ fs hcfg hn
    exact FprintHelp_struct fileUsage ld w typ fs cfg hcfg hn
  · intro typ hfile
    have hs : shownFlags fileUsage ld [] = [] := by
      unfold shownFlags
      simp [hfile]
    rw [FprintHelp_struct fileUsage ld w typ [] (.struct typ []) rfl (by rw [hs]; simp), hs]
    simp [sortFlags, String.join]

/-! ## The labels of `prettyType` -/

theorem prettyTypeOf_slice (s : String) (e : RType) :
    prettyTypeOf (.slice s e) = if e.Kind = Kind.uint8 then "base64" else "list" := by
  rw [prettyTypeOf]
  simp [typeOfTimeDuration, typeOfDuration, typeOfTime]

theorem prettyTypeOf_array (s : String) (e : RType) :
    prettyTypeOf (.array s e) = if e.Kind = Kind.uint8 then "base64" else "list" := by
  rw [prettyTypeOf]
  simp [typeOfTimeDuration, typeOfDuration, typeOfTime]

theorem prettyTypeOf_ptr (s : String) (e : RType) :
    prettyTypeOf (.ptr s e) = prettyTypeOf e := by
  rw [prettyTypeOf]
  simp [typeOfTimeDuration, typeOfDuration, typeOfTime]

/-- C11: for every slice or array type, `prettyType` returns `base64` if the
kind of the element type is the 8-bit unsigned integer and `list` otherwise; a
sequence of bytes is never labelled `list`. -/
theorem prettyType_sequence (t : RType) (hk : t.Kind = Kind.slice ∨ t.Kind = Kind.array) :
    prettyType (some t) = (if t.Elem.Kind = Kind.uint8 then "base64" else "list") ∧
    (t.Elem.Kind = Kind.uint8 → prettyType (some t) = "base64" ∧
      prettyType (some t) ≠ "list") := by
  have h1 : prettyType (some t) = (if t.Elem.Kind = Kind.uint8 then "base64" else "list") := by
    cases t with
    | leaf k s => cases k <;> simp [RType.Kind, LeafKind.toKind] at hk
    | slice s e => exact prettyTypeOf_slice s e
    | array s e => exact prettyTypeOf_array s e
    | ptr s e => simp [RType.Kind] at hk
  refine ⟨h1, ?_⟩
  intro h8
  rw [h1, if_pos h8]
  exact ⟨rfl, by decide⟩

theorem prettyType_sequence_witness :
    (bytesType.Kind = Kind.slice ∨ bytesType.Kind = Kind.array) ∧
    prettyType (some bytesType) = (if bytesType.Elem.Kind = Kind.uint8 then "base64" else "list") ∧
    (bytesType.Elem.Kind = Kind.uint8 → prettyType (some bytesType) = "base64" ∧
      prettyType (some bytesType) ≠ "list") :=
  ⟨Or.inl rfl, prettyType_sequence bytesType (Or.inl rfl)⟩

theorem prettyTypeOf_ptrChain (names : List String) (t : RType) :
    prettyTypeOf (ptrChain names t) = prettyTypeOf t := by
  induction names with
  | nil => rfl
  | cons s names ih => rw [ptrChain, prettyTypeOf_ptr, ih]

/-- C12: pointer chains collapse. For every type and every number of pointer
levels around it, `prettyType` of the wrapped type is `prettyType` of the
type; so `**[]byte` is `base64` and `***time.Duration` is `duration`. -/
theorem prettyType_ptrChain (names : List String) (t : RType) :
    prettyType (some (ptrChain names t)) = prettyType (some t) ∧
    prettyType (some (ptrChain ["**[]uint8", "*[]uint8"] bytesType)) = "base64" ∧
    prettyType (some (ptrChain ["***time.Duration", "**time.Duration", "*time.Duration"]
      typeOfTimeDuration)) = "duration" :=
  ⟨prettyTypeOf_ptrChain names t, by decide, by decide⟩

/-- C13: the exact duration types give `duration` and the exact type
`time.Time` gives `time` before any rule on the kind is tried, so `time.Time`,
although a struct, is not labelled `object`; every other struct type and every
map type gives `object`. -/
theorem prettyType_precedence :
    prettyType (some typeOfTimeDuration) = "duration" ∧
    prettyType (some typeOfDuration) = "duration" ∧
    (typeOfTime.Kind = Kind.struct ∧ prettyType (some typeOfTime) = "time" ∧
      prettyType (some typeOfTime) ≠ "object") ∧
    (∀ t : RType, t.Kind = Kind.struct → t ≠ typeOfTime → prettyType (some t) = "object") ∧
    (∀ t : RType, t.Kind = Kind.map → prettyType (some t) = "object") := by
  refine ⟨by decide, by decide, by decide, ?_, ?_⟩
  · intro t hk hne
    cases t with
    | leaf k s =>
      cases k <;> simp [RType.Kind, LeafKind.toKind] at hk
      show prettyTypeOf (.leaf .struct s) = "object"
      rw [prettyTypeOf]
      have h3 : ¬ RType.leaf LeafKind.struct s = typeOfTime := hne
      simp [typeOfTimeDuration, typeOfDuration, h3]
    | slice s e => simp [RType.Kind] at hk
    | array s e => simp [RType.Kind] at hk
    | ptr s e => simp [RType.Kind] at hk
  · intro t hk
    cases t with
    | leaf k s =>
      cases k <;> simp [RType.Kind, LeafKind.toKind] at hk
      show prettyTypeOf (.leaf .map s) = "object"
      rw [prettyTypeOf]
      simp [typeOfTimeDuration, typeOfDuration, typeOfTime]
    | slice s e => simp [RType.Kind] at hk
    | array s e => simp [RType.Kind] at hk
    | ptr s e => simp [RType.Kind] at hk

/-- C14: for every type that is neither of the duration types nor `time.Time`
and whose kind is not struct, map, slice, array or pointer, the label
`prettyType` returns is what `String()` gives for the type, its own name. -/
theorem prettyType_own_name (t : RType)
    (h1 : t ≠ typeOfTimeDuration) (h2 : t ≠ typeOfDuration) (h3 : t ≠ typeOfTime)
    (hk : t.Kind ≠ Kind.struct ∧ t.Kind ≠ Kind.map ∧ t.Kind ≠ Kind.slice ∧
      t.Kind ≠ Kind.array ∧ t.Kind ≠ Kind.ptr) :
    prettyType (some t) = t.String := by
  obtain ⟨ks, km, ksl, ka, kp⟩ := hk
  cases t with
  | leaf k s =>
    show prettyTypeOf (.leaf k s) = s
    cases k <;>
      first
      | exact (ks rfl).elim
      | exact (km rfl).elim
      | (rw [prettyTypeOf, if_neg h1, if_neg h2, if_neg h3] <;> intro h <;> cases h)
  | slice s e => exact (ksl rfl).elim
  | array s e => exact (ka rfl).elim
  | ptr s e => exact (kp rfl).elim

theorem prettyType_own_name_witness :
    prettyType (some (RType.leaf LeafKind.float64 "float64")) =
      (RType.leaf LeafKind.float64 "float64").String :=
  prettyType_own_name (RType.leaf LeafKind.float64 "float64") (by decide) (by decide)
    (by decide) (by decide)

/-! ## Termination of `prettyType` -/

theorem sequenceLabel_some (tab : List TypeCell) (e : Nat) (h : (tab.get? e).isSome = true) :
    ∃ label, sequenceLabel tab e = some label := by
  unfold sequenceLabel
  cases hc : tab.get? e with
  | none => rw [hc] at h; cases h
  | some ce => exact ⟨_, rfl⟩

theorem prettyTypeIn_of_chainEnds (tab : List TypeCell) (n : Nat) :
    ∀ i fuel, chainEnds tab n i = true → n < fuel →
      ∃ label, prettyTypeIn tab fuel i = some label := by
  induction n with
  | zero =>
    intro i fuel h hf
    obtain ⟨fuel, rfl⟩ : ∃ m, fuel = m + 1 := ⟨fuel - 1, by omega⟩
    unfold chainEnds at h
    unfold prettyTypeIn
    cases hc : tab.get? i with
    | none => rw [hc] at h; cases h
    | some c =>
      rw [hc] at h
      dsimp only
      split_ifs
      · exact ⟨_, rfl⟩
      · exact ⟨_, rfl⟩
      · exact ⟨_, rfl⟩
      · cases c with
        | leaf k s => cases k <;> exact ⟨_, rfl⟩
        | slice s e => exact sequenceLabel_some tab e h
        | array s e => exact sequenceLabel_some tab e h
        | ptr s e => cases h
  | succ n ih =>
    intro i fuel h hf
    obtain ⟨fuel, rfl⟩ : ∃ m, fuel = m + 1 := ⟨fuel - 1, by omega⟩
    unfold chainEnds at h
    unfold prettyTypeIn
    cases hc : tab.get? i with
    | none => rw [hc] at h; cases h
    | some c =>
      rw [hc] at h
      dsimp only
      split_ifs
      · exact ⟨_, rfl⟩
      · exact ⟨_, rfl⟩
      · exact ⟨_, rfl⟩
      · cases c with
        | leaf k s => cases k <;> exact ⟨_, rfl⟩
        | slice s e => exact sequenceLabel_some tab e h
        | array s e => exact sequenceLabel_some tab e h
        | ptr s e => exact ih e fuel h (by omega)

/-- C15, as stated, fails: `type P *P` declares a pointer type that is its own
element type, and on it `prettyType` calls itself again and again: no number
of calls is enough for it to return a label. -/
theorem prettyType_self_pointer_counterexample :
    selfPointerTable.get? 0 = some (TypeCell.ptr "main.P" 0) ∧
    ¬ ∃ fuel label, prettyTypeIn selfPointerTable fuel 0 = some label := by
  refine ⟨rfl, ?_⟩
  rintro ⟨fuel, label, h⟩
  induction fuel with
  | zero => simp [prettyTypeIn] at h
  | succ n ih =>
    apply ih
    have : prettyTypeIn selfPointerTable (n + 1) 0 = prettyTypeIn selfPointerTable n 0 := by
      rw [prettyTypeIn]
      rfl
    rw [this] at h
    exact h

theorem get?_at_length (pre : List TypeCell) (c : TypeCell) (rest : List TypeCell) :
    (pre ++ c :: rest).get? pre.length = some c := by
  induction pre with
  | nil => rfl
  | cons a pre ih => exact ih

theorem cells_head (t : RType) (i : Nat) :
    ∃ c rest, t.cells i = c :: rest ∧ c.Kind = t.Kind := by
  cases t with
  | leaf k s => exact ⟨_, _, rfl, rfl⟩
  | slice s e => exact ⟨_, _, rfl, rfl⟩
  | array s e => exact ⟨_, _, rfl, rfl⟩
  | ptr s e => exact ⟨_, _, rfl, rfl⟩

theorem sequenceLabel_cells (pre : List TypeCell) (c : TypeCell) (e : RType) :
    sequenceLabel (pre ++ c :: e.cells (pre.length + 1)) (pre.length + 1) =
      some (if e.Kind = Kind.uint8 then "base64" else "list") := by
  obtain ⟨ce, rest, hce, hk⟩ := cells_head e (pre.length + 1)
  have hget : (pre ++ c :: e.cells (pre.length + 1)).get? (pre.length + 1) = some ce := by
    rw [hce]
    have := get?_at_length (pre ++ [c]) ce rest
    simpa using this
  unfold sequenceLabel
  rw [hget]
  dsimp only
  rw [hk]

theorem prettyTypeIn_cells (t : RType) :
    ∀ (pre : List TypeCell) (fuel : Nat), t.ptrDepth < fuel →
      prettyTypeIn (pre ++ t.cells pre.length) fuel pre.length = some (prettyTypeOf t) := by
  induction t with
  | leaf k s =>
    intro pre fuel hf
    obtain ⟨fuel, rfl⟩ : ∃ m, fuel = m + 1 := ⟨fuel - 1, by omega⟩
    rw [RType.cells, prettyTypeIn, get?_at_length]
    dsimp only
    unfold prettyTypeOf
    by_cases h1 : RType.leaf k s = typeOfTimeDuration
    · have h1c : TypeCell.leaf k s = TypeCell.leaf LeafKind.int64 "time.Duration" := by
        injection h1 with hk hs; rw [hk, hs]
      rw [if_pos h1, if_pos h1c]
    · have h1c : ¬ TypeCell.leaf k s = TypeCell.leaf LeafKind.int64 "time.Duration" := by
        intro h; apply h1; injection h with hk hs; rw [hk, hs]; rfl
      rw [if_neg h1, if_neg h1c]
      by_cases h2 : RType.leaf k s = typeOfDuration
      · have h2c : TypeCell.leaf k s = TypeCell.leaf LeafKind.int64 "conf.duration" := by
          injection h2 with hk hs; rw [hk, hs]
        rw [if_pos h2, if_pos h2c]
      · have h2c : ¬ TypeCell.leaf k s = TypeCell.leaf LeafKind.int64 "conf.duration" := by
          intro h; apply h2; injection h with hk hs; rw [hk, hs]; rfl
        rw [if_neg h2, if_neg h2c]
        by_cases h3 : RType.leaf k s = typeOfTime
        · have h3c : TypeCell.leaf k s = TypeCell.leaf LeafKind.struct "time.Time" := by
            injection h3 with hk hs; rw [hk, hs]
          rw [if_pos h3, if_pos h3c]
        · have h3c : ¬ TypeCell.leaf k s = TypeCell.leaf LeafKind.struct "time.Time" := by
            intro h; apply h3; injection h with hk hs; rw [hk, hs]; rfl
          rw [if_neg h3, if_neg h3c]
          cases k <;> rfl
  | slice s e _ =>
    intro pre fuel hf
    obtain ⟨fuel, rfl⟩ : ∃ m, fuel = m + 1 := ⟨fuel - 1, by omega⟩
    rw [RType.cells, prettyTypeIn, get?_at_length, prettyTypeOf_slice]
    simp only [reduceCtorEq, if_false]
    exact sequenceLabel_cells pre _ e
  | array s e _ =>
    intro pre fuel hf
    obtain ⟨fuel, rfl⟩ : ∃ m, fuel = m + 1 := ⟨fuel - 1, by omega⟩
    rw [RType.cells, prettyTypeIn, get?_at_length, prettyTypeOf_array]
    simp only [reduceCtorEq, if_false]
    exact sequenceLabel_cells pre _ e
  | ptr s e ih =>
    intro pre fuel hf
    obtain ⟨fuel, rfl⟩ : ∃ m, fuel = m + 1 := ⟨fuel - 1, by omega⟩
    rw [RType.cells, prettyTypeIn, get?_at_length, prettyTypeOf_ptr]
    simp only [reduceCtorEq, if_false]
    have hd : e.ptrDepth < fuel := by
      rw [RType.ptrDepth] at hf
      omega
    have := ih (pre ++ [TypeCell.ptr s (pre.length + 1)]) fuel hd
    simpa using this

/-- C15, amended: `prettyType` returns a label for every type whose chain of
pointer element types ends, after however many steps, in a type that is not a
pointer type: in any table of types, enough calls give a label; for every
type without a cycle, however deep its pointer chain, enough calls give the
label of the total function `prettyType`; and for the nil type the label is
`unknown`. -/
theorem prettyType_total :
    (∀ (tab : List TypeCell) (n i fuel : Nat), chainEnds tab n i = true → n < fuel →
      ∃ label, prettyTypeIn tab fuel i = some label) ∧
    (∀ (t : RType) (fuel : Nat), t.ptrDepth < fuel →
      prettyTypeIn (t.cells 0) fuel 0 = some (prettyType (some t))) ∧
    (∀ (names : List String) (t : RType),
      (ptrChain names t).ptrDepth = names.length + t.ptrDepth) ∧
    prettyType none = "unknown" := by
  refine ⟨?_, ?_, ?_, rfl⟩
  · intro tab n i fuel h hf
    exact prettyTypeIn_of_chainEnds tab n i fuel h hf
  · intro t fuel hf
    exact prettyTypeIn_cells t [] fuel hf
  · intro names t
    induction names with
    | nil => simp [ptrChain]
    | cons s names ih => rw [ptrChain, RType.ptrDepth, ih, List.length_cons]; omega

/-! ## The check of the configuration -/

theorem FprintHelp_not_struct (fileUsage : String) (ld : Loader) (w : String) (cfg : Cfg)
    (h : (if cfg.isPtr then cfg.Elem else cfg).isStruct = false) :
    FprintHelp fileUsage ld w cfg =
      .panicked w ("cannot load configuration into " ++ cfg.typeName) := by
  unfold FprintHelp
  dsimp only
  rw [if_pos h]

theorem FprintHelp_outcome (fileUsage : String) (ld : Loader) (w : String) (cfg : Cfg)
    (h : (if cfg.isPtr then cfg.Elem else cfg).isStruct = true) :
    (∃ out, FprintHelp fileUsage ld w cfg = .done out) ∨
    (∃ e, FprintHelp fileUsage ld w cfg = .panicked w e ∧
      (newFlagSet (if cfg.isPtr then cfg.Elem else cfg) ld.Program = .error e ∨
        ∃ set, newFlagSet (if cfg.isPtr then cfg.Elem else cfg) ld.Program = .ok set ∧
          len ld.FileFlag ≠ 0 ∧ addFileFlag fileUsage set ld.FileFlag = .error e)) := by
  unfold FprintHelp
  dsimp only
  generalize (if cfg.isPtr = true then cfg.Elem else cfg) = v at h ⊢
  have hs : ¬ v.isStruct = false := by rw [h]; simp
  rw [if_neg hs]
  cases hr : newFlagSet v ld.Program with
  | error e => exact Or.inr ⟨e, rfl, Or.inl rfl⟩
  | ok set =>
    dsimp only
    by_cases hfile : len ld.FileFlag ≠ 0
    · rw [if_pos hfile]
      cases hr2 : addFileFlag fileUsage set ld.FileFlag with
      | error e => exact Or.inr ⟨e, rfl, Or.inr ⟨set, rfl, hfile, hr2⟩⟩
      | ok set2 => exact Or.inl ⟨_, rfl⟩
    · rw [if_neg hfile]
      exact Or.inl ⟨_, rfl⟩

/-- C16: `FprintHelp` panics with `cannot load configuration into ...` exactly
when `cfg` is neither a struct nor a pointer whose element is a struct: a
pointer to a pointer to a struct, a nil pointer, and a value of any other kind
are refused; a struct and a pointer to a struct pass the check, after which
the call returns or fails only in building the flag set. -/
theorem FprintHelp_shape_check (fileUsage : String) (ld : Loader) (w : String) (cfg : Cfg) :
    ((if cfg.isPtr then cfg.Elem else cfg).isStruct = true ↔
      (∃ typ fs, cfg = .struct typ fs) ∨ (∃ t typ fs, cfg = .ptr t (.struct typ fs))) ∧
    ((if cfg.isPtr then cfg.Elem else cfg).isStruct = false →
      FprintHelp fileUsage ld w cfg =
        .panicked w ("cannot load configuration into " ++ cfg.typeName)) ∧
    ((if cfg.isPtr then cfg.Elem else cfg).isStruct = true →
      (∃ out, FprintHelp fileUsage ld w cfg = .done out) ∨
      (∃ e, FprintHelp fileUsage ld w cfg = .panicked w e ∧
        (newFlagSet (if cfg.isPtr then cfg.Elem else cfg) ld.Program = .error e ∨
          ∃ set, newFlagSet (if cfg.isPtr then cfg.Elem else cfg) ld.Program = .ok set ∧
            len ld.FileFlag ≠ 0 ∧ addFileFlag fileUsage set ld.FileFlag = .error e))) ∧
    (∀ t1 t2 typ fs, FprintHelp fileUsage ld w (.ptr t1 (.ptr t2 (.struct typ fs))) =
        .panicked w ("cannot load configuration into " ++ t1)) ∧
    (∀ t, FprintHelp fileUsage ld w (.ptr t .invalid) =
        .panicked w ("cannot load configuration into " ++ t)) ∧
    (∀ t, FprintHelp fileUsage ld w (.other t) =
        .panicked w ("cannot load configuration into " ++ t)) := by
  refine ⟨?_, FprintHelp_not_struct fileUsage ld w cfg, FprintHelp_outcome fileUsage ld w cfg,
    ?_, ?_, ?_⟩
  · constructor
    · intro h
      cases cfg with
      | invalid => simp [Cfg.isPtr, Cfg.isStruct] at h
      | struct typ fs => exact Or.inl ⟨typ, fs, rfl⟩
      | other t => simp [Cfg.isPtr, Cfg.isStruct] at h
      | ptr t e =>
        cases e with
        | invalid => simp [Cfg.isPtr, Cfg.Elem, Cfg.isStruct] at h
        | struct typ fs => exact Or.inr ⟨t, typ, fs, rfl⟩
        | other t => simp [Cfg.isPtr, Cfg.Elem, Cfg.isStruct] at h
        | ptr t2 e2 => simp [Cfg.isPtr, Cfg.Elem, Cfg.isStruct] at h
    · rintro (⟨typ, fs, rfl⟩ | ⟨t, typ, fs, rfl⟩) <;> rfl
  · intro t1 t2 typ fs
    exact FprintHelp_not_struct fileUsage ld w _ rfl
  · intro t
    exact FprintHelp_not_struct fileUsage ld w _ rfl
  · intro t
    exact FprintHelp_not_struct fileUsage ld w _ rfl

/-- C17: failures are eager. Whenever `FprintHelp` fails, because the
configuration has not the shape of a struct or because the flag set cannot be
built, the sink holds what it held before the call: nothing has been written,
not even the header. Both kinds of failure do occur. -/
theorem FprintHelp_fails_eagerly (fileUsage : String) (ld : Loader) (w : String) (cfg : Cfg) :
    (∀ w1 msg, FprintHelp fileUsage ld w cfg = .panicked w1 msg → w1 = w) ∧
    ((∃ out, FprintHelp fileUsage ld w cfg = .done out) ∨
      (∃ msg, FprintHelp fileUsage ld w cfg = .panicked w msg)) ∧
    FprintHelp "" ⟨"svc", ""⟩ "" (.other "int") =
      .panicked "" "cannot load configuration into int" ∧
    FprintHelp "" ⟨"svc", ""⟩ "" clashCfg = .panicked "" "svc flag redefined: port" := by
  have hcases : (∃ out, FprintHelp fileUsage ld w cfg = .done out) ∨
      (∃ msg, FprintHelp fileUsage ld w cfg = .panicked w msg) := by
    cases hs : (if cfg.isPtr then cfg.Elem else cfg).isStruct with
    | false => exact Or.inr ⟨_, FprintHelp_not_struct fileUsage ld w cfg hs⟩
    | true =>
      rcases FprintHelp_outcome fileUsage ld w cfg hs with h | ⟨e, h, _⟩
      · exact Or.inl h
      · exact Or.inr ⟨e, h⟩
  refine ⟨?_, hcases, by decide, by decide⟩
  intro w1 msg h
  rcases hcases with ⟨out, ho⟩ | ⟨m, hm⟩
  · rw [ho] at h; cases h
  · rw [hm] at h
    injection h with h1 _
    exact h1.symm

/-! ## The file flag -/

theorem join_map_mem (g : Flag → String) (f : Flag) (l : List Flag) (h : f ∈ l) :
    ∃ pre post, String.join (l.map g) = pre ++ g f ++ post := by
  induction l with
  | nil => cases h
  | cons a l ih =>
    rw [List.map_cons, join_cons]
    rcases List.mem_cons.mp h with rfl | hm
    · exact ⟨"", String.join (l.map g), by simp⟩
    · obtain ⟨pre, post, hp⟩ := ih hm
      exact ⟨g a ++ pre, post, by rw [hp]; simp [String.append_assoc]⟩

/-- C18: if `FileFlag` is empty the flags `FprintHelp` renders are exactly
those of the fields of `cfg`; if it is not empty, exactly one more flag is in
the set before rendering: it is called `FileFlag`, is of the text category
(not boolean, label `string`), is none of the flags of the fields, and its
text appears in the help output. -/
theorem FprintHelp_file_flag (fileUsage : String) (ld : Loader) (w typ : String)
    (fs : List Flag) (hn : ((shownFlags fileUsage ld fs).map Flag.name).Nodup) :
    (len ld.FileFlag = 0 →
      FprintHelp fileUsage ld w (.struct typ fs) =
        .done (w ++ ("Usage of " ++ ld.Program ++ ":\n") ++
          String.join ((sortFlags fs).map (printFlag "")))) ∧
    (len ld.FileFlag ≠ 0 →
      FprintHelp fileUsage ld w (.struct typ fs) =
        .done (w ++ ("Usage of " ++ ld.Program ++ ":\n") ++
          String.join ((sortFlags (fs ++ [fileFlag fileUsage ld.FileFlag])).map
            (printFlag ""))) ∧
      (sortFlags (fs ++ [fileFlag fileUsage ld.FileFlag])).Perm
        (fs ++ [fileFlag fileUsage ld.FileFlag]) ∧
      (fileFlag fileUsage ld.FileFlag).name = ld.FileFlag ∧
      (fileFlag fileUsage ld.FileFlag).value.isBoolFlag = false ∧
      prettyType (some (fileFlag fileUsage ld.FileFlag).value.typ) = "string" ∧
      ld.FileFlag ∉ fs.map Flag.name ∧
      ∃ pre post, FprintHelp fileUsage ld w (.struct typ fs) =
        .done (pre ++ printFlag "" (fileFlag fileUsage ld.FileFlag) ++ post)) := by
  have hall := FprintHelp_struct fileUsage ld w typ fs (.struct typ fs) rfl hn
  constructor
  · intro h0
    have hs : shownFlags fileUsage ld fs = fs := by
      unfold shownFlags
      rw [if_neg (by simp [h0])]
    rw [hall, hs]
  · intro h1
    have hs : shownFlags fileUsage ld fs = fs ++ [fileFlag fileUsage ld.FileFlag] := by
      unfold shownFlags
      rw [if_pos h1]
    rw [hs] at hall hn
    have hlabel : prettyType (some (RType.leaf LeafKind.string "string")) = "string" := by
      decide
    refine ⟨hall, sortFlags_perm _, rfl, rfl, hlabel, ?_, ?_⟩
    · intro hmem
      rw [List.map_append] at hn
      exact (List.nodup_append.mp hn).2.2 hmem (by simp [fileFlag])
    · have hmem : fileFlag fileUsage ld.FileFlag ∈
          sortFlags (fs ++ [fileFlag fileUsage ld.FileFlag]) :=
        (sortFlags_perm _).mem_iff.mpr (by simp)
      obtain ⟨pre, post, hp⟩ := join_map_mem (printFlag "") _ _ hmem
      refine ⟨w ++ ("Usage of " ++ ld.Program ++ ":\n") ++ pre, post, ?_⟩
      rw [hall, hp]
      simp [String.append_assoc]

theorem FprintHelp_file_flag_witness :
    ((shownFlags "path of the configuration file" fileLoader [portFlag]).map Flag.name).Nodup ∧
    len fileLoader.FileFlag ≠ 0 ∧
    FprintHelp "path of the configuration file" fileLoader "" (.struct "main.config" [portFlag]) =
      .done ("Usage of svc:\n  -config-file string\n    \tpath of the configuration file\n" ++
        "  -port int\n    \tport to listen on (default 8080)\n") :=
  ⟨by decide, by decide,
    by
      have h := (FprintHelp_file_flag "path of the configuration file" fileLoader ""
        "main.config" [portFlag] (by decide)).2 (by decide)
      rw [h.1]
      decide⟩

/-! ## Line breaks and indentation -/

theorem ends_newline_lit : endsWithNewline "\n" := by decide

theorem ends_append (a b : String) (hb : endsWithNewline b) : endsWithNewline (a ++ b) := by
  unfold endsWithNewline at *
  rw [String.data_append]
  cases hd : b.data with
  | nil => rw [hd] at hb; cases hb
  | cons c cs =>
    rw [hd] at hb
    rw [List.getLast?_append_of_ne_nil _ (List.cons_ne_nil c cs)]
    exact hb

theorem not_ends_name (name : String) (h : newline ∉ name.data) :
    ¬ endsWithNewline ("  -" ++ name) := by
  unfold endsWithNewline
  intro hl
  have hmem : newline ∈ ("  -" ++ name).data := List.mem_of_getLast?_eq_some hl
  rw [String.data_append, List.mem_append] at hmem
  rcases hmem with hm | hm
  · revert hm; decide
  · exact h hm

theorem printFlag_line_end_aux (f : Flag) (hname : newline ∉ f.name.data) :
    endsWithNewline (printFlag "" f) ↔
      (f.value.isBoolFlag = false ∨ len f.name > 4 ∨ len f.usage ≠ 0) := by
  cases hb : f.value.isBoolFlag with
  | false =>
    constructor
    · intro _; exact Or.inl rfl
    · intro _
      rw [(printFlag_nonbool "" f hb).2]
      split_ifs <;>
        (simp only [String.append_assoc, String.append_empty]
         repeat (first | exact ends_newline_lit | apply ends_append))
  | true =>
    by_cases hl : len f.name > 4
    · constructor
      · intro _; exact Or.inr (Or.inl hl)
      · intro _
        rw [((printFlag_bool_cases "" f hb).1 hl).2]
        split_ifs <;>
          (simp only [String.append_assoc, String.append_empty]
           repeat (first | exact ends_newline_lit | apply ends_append))
    · have hle : len f.name ≤ 4 := by omega
      rw [((printFlag_bool_cases "" f hb).2 hle).2]
      by_cases hu : len f.usage ≠ 0
      · rw [if_pos hu]
        constructor
        · intro _; exact Or.inr (Or.inr hu)
        · intro _
          simp only [String.append_assoc, String.append_empty]
          repeat (first | exact ends_newline_lit | apply ends_append)
      · rw [if_neg hu]
        constructor
        · intro he
          exfalso
          have : "" ++ ("  -" ++ f.name) ++ "" = "  -" ++ f.name := by simp
          rw [this] at he
          exact not_ends_name f.name hname he
        · rintro (h | h | h)
          · cases h
          · exact absurd h hl
          · exact absurd h hu

/-- C19: for a flag whose name holds no line break, the text `FprintHelp`
writes for it ends with a line break if and only if the flag is not boolean,
or its name is longer than 4 bytes, or its usage text is not empty; so a
boolean flag with a name of at most 4 bytes and no usage text is written as
`  -<name>` alone, and the text of the next flag follows on the same line. -/
theorem printFlag_line_end (w : String) (f : Flag) (hname : newline ∉ f.name.data) :
    (endsWithNewline (printFlag "" f) ↔
      (f.value.isBoolFlag = false ∨ len f.name > 4 ∨ len f.usage ≠ 0)) ∧
    (f.value.isBoolFlag = true → len f.name ≤ 4 → len f.usage = 0 →
      printFlag w f = w ++ ("  -" ++ f.name) ∧
      ∀ g, printFlag (printFlag w f) g = w ++ ("  -" ++ f.name) ++ printFlag "" g) := by
  refine ⟨printFlag_line_end_aux f hname, ?_⟩
  intro hb hl hu
  have h1 : printFlag w f = w ++ ("  -" ++ f.name) := by
    rw [((printFlag_bool_cases w f hb).2 hl).2, if_neg (by simp [hu])]
    simp
  refine ⟨h1, ?_⟩
  intro g
  rw [h1, printFlag_append]

theorem printFlag_line_end_witness :
    newline ∉ quietFlag.name.data ∧
    ¬ endsWithNewline (printFlag "" quietFlag) ∧
    printFlag (printFlag "Usage of svc:\n" quietFlag) timeoutFlag =
      "Usage of svc:\n  -q  -timeout duration\n    \trequest timeout\n" := by
  have h := printFlag_line_end "Usage of svc:\n" quietFlag (by decide)
  refine ⟨by decide, ?_, ?_⟩
  · rw [h.1]; decide
  · rw [(h.2 rfl (by decide) (by decide)).2 timeoutFlag]
    decide

/-- C20: for a flag with a non-empty annotation list, `FprintHelp` writes the
four spaces before the tab exactly when the name part it has written ends
with a line break (the flag is not boolean, or its name is longer than 4
bytes); otherwise the tab follows the flag name directly on the same line. -/
theorem printFlag_indent_on_fresh_line (w : String) (f : Flag) (hh : flagHelp f ≠ []) :
    ((f.value.isBoolFlag = false ∨ len f.name > 4) →
      endsWithNewline (printName w f) ∧
      printFlag w f =
        printName w f ++ ("    " ++ ("\t" ++ " ".intercalate (flagHelp f) ++ "\n"))) ∧
    (¬ (f.value.isBoolFlag = false ∨ len f.name > 4) →
      printName w f = w ++ ("  -" ++ f.name) ∧
      printFlag w f =
        w ++ ("  -" ++ f.name) ++ ("\t" ++ " ".intercalate (flagHelp f) ++ "\n")) := by
  have hlen : (flagHelp f).length ≠ 0 := by
    intro h0; exact hh (List.length_eq_zero.mp h0)
  constructor
  · intro hc
    constructor
    · unfold printName
      dsimp only
      split_ifs with h1 h2
      · simp only [String.append_assoc]
        repeat (first | exact ends_newline_lit | apply ends_append)
      · exact ends_append _ _ ends_newline_lit
      · exact absurd hc (by rintro (h | h); exact h1 h; exact h2 h)
    · unfold printFlag
      dsimp only
      rw [if_pos hlen, if_pos hc]
      simp only [String.append_assoc]
  · intro hc
    have hb : ¬ f.value.isBoolFlag = false := fun h => hc (Or.inl h)
    have hl : ¬ len f.name > 4 := fun h => hc (Or.inr h)
    have h1 : printName w f = w ++ ("  -" ++ f.name) := by
      unfold printName
      dsimp only
      rw [if_neg hb, if_neg hl]
    refine ⟨h1, ?_⟩
    unfold printFlag
    dsimp only
    rw [if_pos hlen, if_neg hc, h1]

theorem printFlag_indent_on_fresh_line_witness :
    flagHelp shortBoolFlag ≠ [] ∧
    ¬ (shortBoolFlag.value.isBoolFlag = false ∨ len shortBoolFlag.name > 4) ∧
    printFlag "" shortBoolFlag =
      "" ++ ("  -" ++ shortBoolFlag.name) ++
        ("\t" ++ " ".intercalate (flagHelp shortBoolFlag) ++ "\n") :=
  ⟨by decide, by decide,
    ((printFlag_indent_on_fresh_line "" shortBoolFlag (by decide)).2 (by decide)).2⟩

end Conf
